import Mathlib

/-!
# Verification of `NewClusterAutoscaler` (package `clusterautoscaler`, `main.go`)

A shallow embedding of the component constructor `NewClusterAutoscaler`:

* the two policy documents it builds (the values handed to `json.Marshal`),
* the manifest transformation it registers with the Helm chart,
* its control flow over the calls it makes to the resource engine, with the
  outcome of every call supplied by an `Engine` and every issued request
  recorded in a trace.

`encoding/json`, `fmt` and the Pulumi SDK are libraries outside the package.
In the requests a document is the Go value that is marshalled, with its
strings as texts; `fmt.Sprintf` with `%s` verbs is string concatenation, and
the SDK calls are the fields of `Engine`. The text `json.Marshal` makes of the
trust document, over Go strings as byte strings, is modelled in the section on
the marshalled trust document.
-/

set_option autoImplicit false

namespace ClusterAutoscalerModel

/-! ## Data model -/

/-- Deferred output of a resource (`pulumi.StringOutput`, `pulumi.IDOutput`):
a handle the engine resolves later, never a resolved string. -/
structure Output where
  handle : String
deriving DecidableEq, Repr

/-- Go values of type `interface{}` that occur in the policy documents and in
the generated objects handed to a transformation. `map` is a (non-nil)
`map[string]interface{}`, kept as an association list read by first match;
`strs` is a `[]string`; `list` is a `[]interface{}`; `null` is the nil
interface, which is also what reading an absent key yields; `output` is a
`pulumi.StringOutput` stored as a value. -/
inductive Value where
  | null : Value
  | bool (b : Bool) : Value
  | num (n : Int) : Value
  | str (s : String) : Value
  | strs (l : List String) : Value
  | list (l : List Value) : Value
  | map (m : List (String × Value)) : Value
  | output (o : Output) : Value

/-- A `map[string]interface{}`. -/
abbrev Obj := List (String × Value)

/-- Map read `m[k]`; `none` stands for the absent key. -/
def mapGet {α : Type} (k : String) : List (String × α) → Option α
  | [] => none
  | (k', v) :: rest => if k' = k then some v else mapGet k rest

/-- Map write `m[k] = v`: overwrites the entry for `k`, or adds one. -/
def mapSet {α : Type} (k : String) (v : α) : List (String × α) → List (String × α)
  | [] => [(k, v)]
  | (k', v') :: rest => if k' = k then (k, v) :: rest else (k', v') :: mapSet k v rest

/-- Outcome of running Go code that may panic. -/
inductive Run (α : Type) where
  | done (a : α) : Run α
  | panic (msg : String) : Run α

abbrev Error := String

/-- The struct `Args`. -/
structure Args where
  CreateNamespace : Bool
  Namespace : String
  ClusterName : String
deriving DecidableEq, Repr

/-- The struct `ClusterAutoscaler`. `ResourceState` is the embedded
`pulumi.ResourceState` (the URN output, unset in the zero value) and `ID` the
`pulumi.IDOutput` field (unset in the zero value). -/
structure ClusterAutoscaler where
  ResourceState : Option Output
  ID : Option Output
  Args : Args
deriving DecidableEq, Repr

/-- The zero value `ClusterAutoscaler{}`. -/
def ClusterAutoscaler.zero : ClusterAutoscaler :=
  { ResourceState := none, ID := none, Args := { CreateNamespace := false, Namespace := "", ClusterName := "" } }

/-- The outputs of an `iam.Role` that the constructor reads or could read. -/
structure Role where
  ID : Output
  Arn : Output
  Name : Output
deriving DecidableEq, Repr

/-- The outputs of an `iam.Policy`. -/
structure Policy where
  ID : Output
  Arn : Output
deriving DecidableEq, Repr

/-- A caller-supplied `pulumi.ResourceOption`, passed through unread. -/
structure ResourceOption where
  tag : String
deriving DecidableEq, Repr

/-- A `yaml.Transformation`: mutates the object in place, or panics. -/
abbrev Transformation := Obj → Run Obj

structure RoleArgs where
  AssumeRolePolicy : Value

structure PolicyArgs where
  Policy : Value

structure RolePolicyAttachmentArgs where
  Role : Output
  PolicyArn : Output

structure NamespaceArgs where
  MetadataName : String

structure ChartArgs where
  Chart : String
  FetchRepo : String
  Values : Obj
  Namespace : String
  Transformations : List Transformation

/-- Configuration of the running program, keyed by `namespace:key`. -/
structure Context where
  config : String → Option String

/-- `config.New(ctx, ns).Require(key)`: panics when the key is missing. -/
def Require (ctx : Context) (ns key : String) : Run String :=
  match ctx.config (ns ++ ":" ++ key) with
  | some v => .done v
  | none => .panic ("missing required configuration variable " ++ ns ++ ":" ++ key)

/-- The resource engine and provider SDK: the outcome of every request the
constructor issues. `NewRole` and `NewPolicy` yield the resource or an error
(with a nil resource); `parent` is the resource given with `pulumi.Parent`,
`none` for a nil pointer. `RegisterComponentResource` receives the component
by pointer and yields it as the engine left it. -/
structure Engine where
  NewRole : String → RoleArgs → Except Error Role
  NewPolicy : String → PolicyArgs → (parent : Option Role) → Except Error Policy
  NewRolePolicyAttachment : String → RolePolicyAttachmentArgs → (parent : Policy) → Except Error Unit
  NewNamespace : String → NamespaceArgs → (parent : ClusterAutoscaler) → Except Error Unit
  NewChart : String → ChartArgs → Except Error Unit
  RegisterComponentResource :
    String → String → ClusterAutoscaler → List ResourceOption → Except Error ClusterAutoscaler

/-- A request issued to the engine, with its arguments. -/
inductive Request where
  | role (name : String) (args : RoleArgs)
  | policy (name : String) (args : PolicyArgs) (parent : Option Role)
  | attachment (name : String) (args : RolePolicyAttachmentArgs) (parent : Policy)
  | kubeNamespace (name : String) (args : NamespaceArgs) (parent : ClusterAutoscaler)
  | chart (name : String) (args : ChartArgs)
  | component (type name : String) (opts : List ResourceOption)

/-- Which resource a request asks for. -/
inductive Kind where
  | role | policy | attachment | kubeNamespace | chart | component
deriving DecidableEq, Repr

def Request.kind : Request → Kind
  | .role .. => .role
  | .policy .. => .policy
  | .attachment .. => .attachment
  | .kubeNamespace .. => .kubeNamespace
  | .chart .. => .chart
  | .component .. => .component

/-! ## The policy documents -/

/-- The value marshalled into `clusterAutoScalerRolePolicyJSON` (lines 44-60). -/
def clusterAutoScalerRolePolicyJSON : Value :=
  .map [
    ("Version", .str "2012-10-17"),
    ("Statement", .list [
      .map [
        ("Action", .strs [
          "autoscaling:DescribeAutoScalingGroups",
          "autoscaling:DescribeAutoScalingInstances",
          "autoscaling:DescribeLaunchConfigurations",
          "autoscaling:DescribeTags",
          "autoscaling:SetDesiredCapacity",
          "autoscaling:TerminateInstanceInAutoScalingGroup"]),
        ("Effect", .str "Allow"),
        ("Resource", .str "*")]])]

/-- The local `serviceAccountName` (line 62). -/
def serviceAccountName (ns : String) : String :=
  "system:serviceaccount:" ++ ns ++ ":cluster-autoscaler-aws-cluster-autoscaler-chart"

/-- The value marshalled into `assumeRolePolicyJSON` (lines 67-83), as a
function of the three locals it reads. -/
def assumeRolePolicyJSON (oidcArn oidcUrl serviceAccountName : String) : Value :=
  .map [
    ("Version", .str "2012-10-17"),
    ("Statement", .list [
      .map [
        ("Effect", .str "Allow"),
        ("Principal", .map [("Federated", .str oidcArn)]),
        ("Action", .str "sts:AssumeRoleWithWebIdentity"),
        ("Condition", .map [
          ("StringEquals", .map [(oidcUrl ++ ":sub", .str serviceAccountName)])])]])]

/-! ## The transformation -/

/-- The test `state["kind"] == "ServiceAccount"`: an interface value equals
the string constant only when it holds a string with that content. -/
def kindIsServiceAccount (state : Obj) : Bool :=
  match mapGet "kind" state with
  | some (.str s) => s == "ServiceAccount"
  | _ => false

/-- The transformation registered with the chart (lines 132-139), closed over
the role. The role pointer is non-nil wherever the closure exists: line 103
dereferenced it before the chart was requested. -/
def transformation (clusterAutoScalerIamRole : Role) : Transformation := fun state =>
  if kindIsServiceAccount state then
    match mapGet "metadata" state with
    | some (.map metadata) =>
      .done (mapSet "metadata"
        (.map (mapSet "annotations"
          (.map [("eks.amazonaws.com/role-arn", .output clusterAutoScalerIamRole.Arn)])
          metadata))
        state)
    | _ => .panic "interface conversion: metadata is not a string-keyed map"
  else
    .done state

/-! ## The constructor -/

/-- The result of a run: the requests issued, in order, and what the call
yields: `(ca, nil)` is `.done (.ok ca)`, `(nil, err)` is `.done (.error err)`. -/
abbrev Result := List Request × Run (Except Error ClusterAutoscaler)

/-- The pointer a constructor of the SDK returns: nil on error. -/
def ptrOf {α : Type} : Except Error α → Option α
  | .ok a => some a
  | .error _ => none

/-- The error a call returns: nil on success. -/
def errOf {α : Type} : Except Error α → Option Error
  | .ok _ => none
  | .error e => some e

/-- The values passed to the chart (lines 124-129). -/
def chartValues (clusterName region : String) : Obj :=
  [("autoDiscovery", .map [("clusterName", .str clusterName)]), ("awsRegion", .str region)]

/-- The function `NewClusterAutoscaler` (lines 30-151). The variable `err` is
threaded as in the source: it is assigned by every call and read only where
the source reads it. -/
def NewClusterAutoscaler (eng : Engine) (ctx : Context) (name : String) (args : Args)
    (opts : List ResourceOption) : Result :=
  let ca := ClusterAutoscaler.zero
  match Require ctx "clusterautoscaler" "oidcArn" with
  | .panic msg => ([], .panic msg)
  | .done oidcArn =>
  match Require ctx "clusterautoscaler" "oidcUrl" with
  | .panic msg => ([], .panic msg)
  | .done oidcUrl =>
  match Require ctx "region" "region" with
  | .panic msg => ([], .panic msg)
  | .done region =>
  let serviceAccountName := serviceAccountName args.Namespace
  let assumeRolePolicy := assumeRolePolicyJSON oidcArn oidcUrl serviceAccountName
  -- iam.NewRole: err is assigned and not read
  let roleArgs : RoleArgs := { AssumeRolePolicy := assumeRolePolicy }
  let t1 := [Request.role (name ++ "-iam-role") roleArgs]
  let clusterAutoScalerIamRole := ptrOf (eng.NewRole (name ++ "-iam-role") roleArgs)
  -- iam.NewPolicy: err is read
  let policyArgs : PolicyArgs := { Policy := clusterAutoScalerRolePolicyJSON }
  let t2 := t1 ++ [Request.policy (name ++ "-policy") policyArgs clusterAutoScalerIamRole]
  match eng.NewPolicy (name ++ "-policy") policyArgs clusterAutoScalerIamRole with
  | .error err => (t2, .done (.error err))
  | .ok clusterAutoscalerPolicy =>
  -- clusterAutoScalerIamRole.Name dereferences the role pointer
  match clusterAutoScalerIamRole with
  | none => (t2, .panic "invalid memory address or nil pointer dereference")
  | some role =>
  -- iam.NewRolePolicyAttachment: err is assigned and not read
  let attachmentArgs : RolePolicyAttachmentArgs :=
    { Role := role.Name, PolicyArn := clusterAutoscalerPolicy.Arn }
  let t3 := t2 ++ [Request.attachment (name ++ "-policy-attachment") attachmentArgs
    clusterAutoscalerPolicy]
  let _err := errOf (eng.NewRolePolicyAttachment (name ++ "-policy-attachment") attachmentArgs
    clusterAutoscalerPolicy)
  -- optionally create a namespace: the inner err is read
  let namespaceArgs : NamespaceArgs := { MetadataName := args.Namespace }
  let t4 := if args.CreateNamespace then t3 ++ [Request.kubeNamespace name namespaceArgs ca] else t3
  match (if args.CreateNamespace then errOf (eng.NewNamespace name namespaceArgs ca) else none) with
  | some err => (t4, .done (.error err))
  | none =>
  -- helm.NewChart: err is assigned and not read
  let chartArgs : ChartArgs :=
    { Chart := "cluster-autoscaler-chart"
      FetchRepo := "https://kubernetes.github.io/autoscaler"
      Values := chartValues args.ClusterName region
      Namespace := args.Namespace
      Transformations := [transformation role] }
  let t5 := t4 ++ [Request.chart "cluster-autoscaler" chartArgs]
  let _err := errOf (eng.NewChart "cluster-autoscaler" chartArgs)
  -- ctx.RegisterComponentResource: err is read
  let t6 := t5 ++ [Request.component "jaxxstorm:clusterautoscaler" name opts]
  match eng.RegisterComponentResource "jaxxstorm:clusterautoscaler" name ca opts with
  | .error err => (t6, .done (.error err))
  | .ok ca => (t6, .done (.ok ca))

/-! ## Reading documents, objects and traces -/

/-- Field `k` of a value that is a string-keyed map. -/
def Value.field (k : String) : Value → Option Value
  | .map m => mapGet k m
  | _ => none

/-- The statement list of a policy document. -/
def statements (doc : Value) : List Value :=
  match doc.field "Statement" with
  | some (.list l) => l
  | _ => []

/-- The action list of a statement. -/
def actionsOf (stmt : Value) : List String :=
  match stmt.field "Action" with
  | some (.strs l) => l
  | some (.str a) => [a]
  | _ => []

/-- The six autoscaling actions the specification enumerates. -/
def fixedActions : List String :=
  ["autoscaling:DescribeAutoScalingGroups",
   "autoscaling:DescribeAutoScalingInstances",
   "autoscaling:DescribeLaunchConfigurations",
   "autoscaling:DescribeTags",
   "autoscaling:SetDesiredCapacity",
   "autoscaling:TerminateInstanceInAutoScalingGroup"]

/-- The trust documents carried by the role requests of a trace. -/
def roleDocs : List Request → List Value
  | [] => []
  | .role _ args :: rest => args.AssumeRolePolicy :: roleDocs rest
  | _ :: rest => roleDocs rest

/-- The permission documents carried by the policy requests of a trace. -/
def policyDocs : List Request → List Value
  | [] => []
  | .policy _ args _ :: rest => args.Policy :: policyDocs rest
  | _ :: rest => policyDocs rest

/-- The chart requests of a trace. -/
def chartRequests : List Request → List ChartArgs
  | [] => []
  | .chart _ args :: rest => args :: chartRequests rest
  | _ :: rest => chartRequests rest

/-- The value of `metadata.annotations[key]` of an object. -/
def annotationValue (key : String) (state : Obj) : Option Value :=
  mapGet "metadata" state >>= Value.field "annotations" >>= Value.field key

/-! ## The marshalled trust document

`json.Marshal` turns the trust document into text before it reaches the role
request (lines 67 and 89). Here Go strings are byte strings, and
`encoding/json` and `unicode/utf8` are modelled from their documented
behaviour: map keys are written in byte order, strings are written by
`appendString` with HTML escaping, and a byte that starts no valid UTF-8
encoding is written as the escape of U+FFFD. -/

/-- A Go string: its bytes, each a number below 256. -/
abbrev GoString := List Nat

/-- The UTF-8 encoding of a code point (`utf8.EncodeRune`). -/
def encodeRune (n : Nat) : List Nat :=
  if n < 0x80 then [n]
  else if n < 0x800 then [0xC0 + n / 64, 0x80 + n % 64]
  else if n < 0x10000 then [0xE0 + n / 4096, 0x80 + n / 64 % 64, 0x80 + n % 64]
  else [0xF0 + n / 262144, 0x80 + n / 4096 % 64, 0x80 + n / 64 % 64, 0x80 + n % 64]

def utf8Chars : List Char → GoString
  | [] => []
  | c :: cs => encodeRune c.toNat ++ utf8Chars cs

/-- The Go string that holds a text: its UTF-8 bytes. The valid UTF-8 Go
strings are exactly the values of `utf8`. -/
def utf8 (s : String) : GoString := utf8Chars s.data

/-- The rune `utf8.RuneError`. -/
def runeError : Nat := 0xFFFD

/-- The tables `first` and `acceptRanges` of `unicode/utf8`: for a leading
byte, the length of the encoding and the range accepted for the second byte;
`none` for a byte that leads no encoding of two or more bytes. -/
def first (s0 : Nat) : Option (Nat × Nat × Nat) :=
  if 0xC2 ≤ s0 ∧ s0 ≤ 0xDF then some (2, 0x80, 0xBF)
  else if s0 = 0xE0 then some (3, 0xA0, 0xBF)
  else if 0xE1 ≤ s0 ∧ s0 ≤ 0xEC then some (3, 0x80, 0xBF)
  else if s0 = 0xED then some (3, 0x80, 0x9F)
  else if 0xEE ≤ s0 ∧ s0 ≤ 0xEF then some (3, 0x80, 0xBF)
  else if s0 = 0xF0 then some (4, 0x90, 0xBF)
  else if 0xF1 ≤ s0 ∧ s0 ≤ 0xF3 then some (4, 0x80, 0xBF)
  else if s0 = 0xF4 then some (4, 0x80, 0x8F)
  else none

/-- The function `utf8.DecodeRuneInString`: the first rune of a Go string and
the number of bytes it takes; `(runeError, 1)` for an invalid encoding. -/
def DecodeRuneInString : GoString → Nat × Nat
  | [] => (runeError, 0)
  | s0 :: rest =>
    if s0 < 0x80 then (s0, 1)
    else
      match first s0 with
      | none => (runeError, 1)
      | some (sz, lo, hi) =>
        if rest.length + 1 < sz then (runeError, 1)
        else
          match rest with
          | [] => (runeError, 1)
          | s1 :: rest1 =>
            if s1 < lo ∨ hi < s1 then (runeError, 1)
            else if sz ≤ 2 then (s0 % 32 * 64 + s1 % 64, 2)
            else
              match rest1 with
              | [] => (runeError, 1)
              | s2 :: rest2 =>
                if s2 < 0x80 ∨ 0xBF < s2 then (runeError, 1)
                else if sz ≤ 3 then (s0 % 16 * 4096 + s1 % 64 * 64 + s2 % 64, 3)
                else
                  match rest2 with
                  | [] => (runeError, 1)
                  | s3 :: _ =>
                    if s3 < 0x80 ∨ 0xBF < s3 then (runeError, 1)
                    else (s0 % 8 * 262144 + s1 % 64 * 4096 + s2 % 64 * 64 + s3 % 64, 4)

/-- The digit `hex[n]` of `encoding/json`, as its byte. -/
def hexDigit (n : Nat) : Nat := if n < 10 then 48 + n else 87 + n

/-- The table `htmlSafeSet` on the bytes below 0x80: every byte from the space
on, but the double quote, `&`, `<`, `>` and the backslash. -/
def htmlSafe (b : Nat) : Bool :=
  decide (0x20 ≤ b) && !(b = 34 || b = 38 || b = 60 || b = 62 || b = 92)

/-- What `appendString` writes for a byte below 0x80. -/
def appendByte (b : Nat) : List Nat :=
  if htmlSafe b then [b]
  else if b = 92 ∨ b = 34 then [92, b]
  else if b = 10 then [92, 110]
  else if b = 13 then [92, 114]
  else if b = 9 then [92, 116]
  else [92, 117, 48, 48, hexDigit (b / 16), hexDigit (b % 16)]

/-- What `appendString` writes for a valid rune `c` of two or more bytes: an
escape for U+2028 and U+2029, the bytes themselves otherwise. -/
def appendWide (c : Nat) (bytes : List Nat) : List Nat :=
  if c = 0x2028 ∨ c = 0x2029 then [92, 117, 50, 48, 50, hexDigit (c % 16)] else bytes

/-- The six bytes of the escape of U+FFFD, written for an invalid byte. -/
def invalidEscape : List Nat := [92, 117, 102, 102, 102, 100]

/-- The loop of `appendString` over the bytes left to read; every round reads
at least one byte, so as many rounds as bytes suffice. -/
def stringBodyLoop : Nat → GoString → List Nat
  | 0, _ => []
  | _ + 1, [] => []
  | fuel + 1, b0 :: rest =>
    if b0 < 0x80 then appendByte b0 ++ stringBodyLoop fuel rest
    else
      let c := (DecodeRuneInString (b0 :: rest)).1
      let size := (DecodeRuneInString (b0 :: rest)).2
      if c = runeError ∧ size = 1 then invalidEscape ++ stringBodyLoop fuel rest
      else appendWide c ((b0 :: rest).take size) ++ stringBodyLoop fuel (rest.drop (size - 1))

def stringBody (s : GoString) : List Nat := stringBodyLoop s.length s

/-- The function `appendString` of `encoding/json` with HTML escaping: the
string between double quotes. -/
def appendString (s : GoString) : List Nat := 34 :: (stringBody s ++ [34])

/-- The values `json.Marshal` is given here: strings, slices and string-keyed
maps. -/
inductive GoValue where
  | str (s : GoString)
  | list (l : List GoValue)
  | map (m : List (GoString × GoValue))

/-- Byte order of Go strings, the order in which map keys are written. -/
def bytesLt : GoString → GoString → Bool
  | [], [] => false
  | [], _ :: _ => true
  | _ :: _, [] => false
  | a :: as, b :: bs => if a < b then true else if b < a then false else bytesLt as bs

def insertField (f : GoString × List Nat) :
    List (GoString × List Nat) → List (GoString × List Nat)
  | [] => [f]
  | g :: rest => if bytesLt f.1 g.1 then f :: g :: rest else g :: insertField f rest

/-- The marshalled fields of a map, sorted by key. -/
def sortFields : List (GoString × List Nat) → List (GoString × List Nat)
  | [] => []
  | f :: rest => insertField f (sortFields rest)

/-- The fields of a map as text: key, colon, value, with commas between. -/
def joinFields : List (GoString × List Nat) → List Nat
  | [] => []
  | [f] => appendString f.1 ++ 58 :: f.2
  | f :: g :: rest => appendString f.1 ++ 58 :: f.2 ++ 44 :: joinFields (g :: rest)

/-- The elements of a slice as text, with commas between. -/
def joinElems : List (List Nat) → List Nat
  | [] => []
  | [e] => e
  | e :: f :: rest => e ++ 44 :: joinElems (f :: rest)

mutual
/-- The function `json.Marshal` on strings, slices and string-keyed maps. -/
def Marshal : GoValue → List Nat
  | .str s => appendString s
  | .list l => 91 :: (joinElems (marshalList l) ++ [93])
  | .map m => 123 :: (joinFields (sortFields (marshalFields m)) ++ [125])
def marshalList : List GoValue → List (List Nat)
  | [] => []
  | v :: rest => Marshal v :: marshalList rest
def marshalFields : List (GoString × GoValue) → List (GoString × List Nat)
  | [] => []
  | (k, v) :: rest => (k, Marshal v) :: marshalFields rest
end

/-- The value marshalled into `assumeRolePolicyJSON` (lines 67-83) with its
strings as Go strings: `assumeRolePolicyJSON` on bytes. -/
def assumeRolePolicyGo (oidcArn oidcUrl serviceAccountName : GoString) : GoValue :=
  .map [
    (utf8 "Version", .str (utf8 "2012-10-17")),
    (utf8 "Statement", .list [
      .map [
        (utf8 "Effect", .str (utf8 "Allow")),
        (utf8 "Principal", .map [(utf8 "Federated", .str oidcArn)]),
        (utf8 "Action", .str (utf8 "sts:AssumeRoleWithWebIdentity")),
        (utf8 "Condition", .map [
          (utf8 "StringEquals", .map [(oidcUrl ++ utf8 ":sub", .str serviceAccountName)])])]])]

/-- The local `serviceAccountName` (line 62) on Go strings. -/
def goServiceAccountName (ns : GoString) : GoString :=
  utf8 "system:serviceaccount:" ++ ns ++ utf8 ":cluster-autoscaler-aws-cluster-autoscaler-chart"

mutual
/-- A document of texts as a document of Go strings; `none` for a value that
is no string, slice or string-keyed map. -/
def Value.toGo : Value → Option GoValue
  | .str s => some (.str (utf8 s))
  | .strs l => some (.list (l.map fun s => .str (utf8 s)))
  | .list l => (listToGo l).map .list
  | .map m => (fieldsToGo m).map .map
  | _ => none
def listToGo : List Value → Option (List GoValue)
  | [] => some []
  | v :: rest =>
    match v.toGo, listToGo rest with
    | some g, some gs => some (g :: gs)
    | _, _ => none
def fieldsToGo : List (String × Value) → Option (List (GoString × GoValue))
  | [] => some []
  | (k, v) :: rest =>
    match v.toGo, fieldsToGo rest with
    | some g, some gs => some ((utf8 k, g) :: gs)
    | _, _ => none
end

/-! ### Reading the text back -/

/-- The value of a hexadecimal digit. -/
def hexValue (b : Nat) : Option Nat :=
  if 48 ≤ b ∧ b ≤ 57 then some (b - 48)
  else if 97 ≤ b ∧ b ≤ 102 then some (b - 87)
  else if 65 ≤ b ∧ b ≤ 70 then some (b - 55)
  else none

def hex4 (a b c d : Nat) : Option Nat :=
  match hexValue a, hexValue b, hexValue c, hexValue d with
  | some x, some y, some z, some w => some (((x * 16 + y) * 16 + z) * 16 + w)
  | _, _, _, _ => none

/-- The byte a two-character JSON escape stands for. -/
def shortEscape (e : Nat) : Option Nat :=
  if e = 34 then some 34
  else if e = 92 then some 92
  else if e = 47 then some 47
  else if e = 98 then some 8
  else if e = 102 then some 12
  else if e = 110 then some 10
  else if e = 114 then some 13
  else if e = 116 then some 9
  else none

def prepend (bs : List Nat) : Option (GoString × List Nat) → Option (GoString × List Nat)
  | some (s, r) => some (bs ++ s, r)
  | none => none

/-- Reading a JSON string after its opening quote: the Go string it stands
for, and the text after its closing quote. -/
def readStringBody : List Nat → Option (GoString × List Nat)
  | [] => none
  | b :: rest =>
    if b = 34 then some ([], rest)
    else if b = 92 then
      match rest with
      | [] => none
      | e :: rest1 =>
        if e = 117 then
          match rest1 with
          | a :: b' :: c :: d :: rest2 =>
            match hex4 a b' c d with
            | some n => prepend (encodeRune n) (readStringBody rest2)
            | none => none
          | _ => none
        else
          match shortEscape e with
          | some ch => prepend [ch] (readStringBody rest1)
          | none => none
    else prepend [b] (readStringBody rest)

/-- The text of a trust document up to the condition key, after its opening
quote. -/
def trustHead : List Nat :=
  utf8 "\x7b\x22Statement\x22:[\x7b\x22Action\x22:\x22sts:AssumeRoleWithWebIdentity\x22,\x22Condition\x22:\x7b\x22StringEquals\x22:\x7b\x22"

/-- The text between the condition key and the condition value. -/
def trustColon : List Nat := utf8 ":\x22"

/-- The text between the condition value and the federated principal. -/
def trustMiddle : List Nat :=
  utf8 "\x7d\x7d,\x22Effect\x22:\x22Allow\x22,\x22Principal\x22:\x7b\x22Federated\x22:\x22"

/-- The text after the federated principal. -/
def trustTail : List Nat := utf8 "\x7d\x7d],\x22Version\x22:\x222012-10-17\x22\x7d"

/-- The text `s` without its beginning `p`, when it begins so. -/
def stripPrefixBytes : List Nat → List Nat → Option (List Nat)
  | [], s => some s
  | _ :: _, [] => none
  | p :: ps, b :: s => if p = b then stripPrefixBytes ps s else none

/-- The Go string `s` without its ending `suf`, when it ends so. -/
def stripSuffixBytes (suf s : List Nat) : Option (List Nat) :=
  (stripPrefixBytes suf.reverse s.reverse).map List.reverse

/-- Reading the text of a trust document back: the federated principal, the
condition key without its `:sub` ending, and the condition value. -/
def readTrustText (text : List Nat) : Option (GoString × GoString × GoString) :=
  match stripPrefixBytes trustHead text with
  | none => none
  | some t1 =>
    match readStringBody t1 with
    | none => none
    | some (key, t2) =>
      match stripPrefixBytes trustColon t2 with
      | none => none
      | some t3 =>
        match readStringBody t3 with
        | none => none
        | some (principal, t4) =>
          match stripPrefixBytes trustMiddle t4 with
          | none => none
          | some t5 =>
            match readStringBody t5 with
            | none => none
            | some (arn, t6) =>
              if t6 = trustTail then
                match stripSuffixBytes (utf8 ":sub") key with
                | some url => some (arn, url, principal)
                | none => none
              else none

/-! ## Example inputs -/

/-- The configuration of the end-to-end scenario. -/
def exampleContext : Context :=
  { config := fun k =>
      if k = "clusterautoscaler:oidcArn" then some "arn:aws:iam::123:oidc-provider/x"
      else if k = "clusterautoscaler:oidcUrl" then some "oidc.eks.amazonaws.com/id/ABC"
      else if k = "region:region" then some "us-east-1"
      else none }

def exampleArgs : Args :=
  { CreateNamespace := true, Namespace := "autoscaler-ns", ClusterName := "prod-1" }

def exampleRole : Role :=
  { ID := ⟨"role.id"⟩, Arn := ⟨"role.arn"⟩, Name := ⟨"role.name"⟩ }

def examplePolicy : Policy :=
  { ID := ⟨"policy.id"⟩, Arn := ⟨"policy.arn"⟩ }

/-- The chart arguments of the end-to-end scenario. -/
def exampleChartArgs : ChartArgs :=
  { Chart := "cluster-autoscaler-chart"
    FetchRepo := "https://kubernetes.github.io/autoscaler"
    Values := chartValues "prod-1" "us-east-1"
    Namespace := "autoscaler-ns"
    Transformations := [transformation exampleRole] }

/-- A generated ServiceAccount whose metadata has no annotations. -/
def plainServiceAccount : Obj :=
  [("apiVersion", .str "v1"),
   ("kind", .str "ServiceAccount"),
   ("metadata", .map [("name", .str "cluster-autoscaler-aws-cluster-autoscaler-chart")])]

/-- A generated ServiceAccount whose metadata already holds an annotation. -/
def annotatedServiceAccount : Obj :=
  [("apiVersion", .str "v1"),
   ("kind", .str "ServiceAccount"),
   ("metadata", .map [
      ("name", .str "cluster-autoscaler-aws-cluster-autoscaler-chart"),
      ("annotations", .map [("team", .str "infra")])])]

/-- A generated object of another kind. -/
def exampleDeployment : Obj :=
  [("apiVersion", .str "apps/v1"),
   ("kind", .str "Deployment"),
   ("metadata", .map [("name", .str "cluster-autoscaler"),
      ("annotations", .map [("team", .str "infra")])])]

/-- An engine on which every request succeeds. Registering the component binds
its URN and its output field `ID` to outputs of the component itself; `Args`,
which is no output, stays as it is. -/
def okEngine : Engine :=
  { NewRole := fun _ _ => .ok exampleRole
    NewPolicy := fun _ _ _ => .ok examplePolicy
    NewRolePolicyAttachment := fun _ _ _ => .ok ()
    NewNamespace := fun _ _ _ => .ok ()
    NewChart := fun _ _ => .ok ()
    RegisterComponentResource := fun _ _ ca _ =>
      .ok { ca with ResourceState := some ⟨"component.urn"⟩, ID := some ⟨"component.ID"⟩ } }

end ClusterAutoscalerModel

namespace ClusterAutoscalerModel

/-- As `okEngine`, but the chart request fails. -/
def chartFailsEngine : Engine :=
  { okEngine with NewChart := fun _ _ => .error "chart failed" }

/-- As `okEngine`, but the role-policy attachment request fails. -/
def attachmentFailsEngine : Engine :=
  { okEngine with NewRolePolicyAttachment := fun _ _ _ => .error "attachment failed" }

/-- As `okEngine`, but the role request fails. -/
def roleFailsEngine : Engine :=
  { okEngine with NewRole := fun _ _ => .error "role failed" }

/-- The component `okEngine` yields from the zero value. -/
def registeredZero : ClusterAutoscaler :=
  { ResourceState := some ⟨"component.urn"⟩, ID := some ⟨"component.ID"⟩,
    Args := { CreateNamespace := false, Namespace := "", ClusterName := "" } }

/-- The kinds of the requests of a trace, in order. -/
def kinds (t : List Request) : List Kind := t.map Request.kind

/-- The parents given to the policy requests of a trace. -/
def policyParents : List Request → List (Option Role)
  | [] => []
  | .policy _ _ parent :: rest => parent :: policyParents rest
  | _ :: rest => policyParents rest

/-- The bytes `6e 73 ff 78`: `ns`, a byte that is no UTF-8, `x`. -/
def namespaceFF : GoString := [0x6e, 0x73, 0xff, 0x78]

/-- The bytes `6e 73 fe 78`. -/
def namespaceFE : GoString := [0x6e, 0x73, 0xfe, 0x78]

/-- The configured ARN and issuer URL of the end-to-end scenario, as Go
strings. -/
def exampleArnBytes : GoString := utf8 "arn:aws:iam::123:oidc-provider/x"

def exampleUrlBytes : GoString := utf8 "oidc.eks.amazonaws.com/id/ABC"

/-! ## Lemmas on maps and traces -/

theorem mapGet_mapSet_self {α : Type} (k : String) (v : α) (m : List (String × α)) :
    mapGet k (mapSet k v m) = some v := by
  induction m with
  | nil => simp [mapSet, mapGet]
  | cons e m ih =>
    obtain ⟨k', v'⟩ := e
    by_cases h : k' = k <;> simp [mapSet, mapGet, h, ih]

theorem mapGet_mapSet_other {α : Type} (k k' : String) (v : α) (m : List (String × α))
    (h : k' ≠ k) : mapGet k' (mapSet k v m) = mapGet k' m := by
  induction m with
  | nil => simp [mapSet, mapGet, h.symm]
  | cons e m ih =>
    obtain ⟨k₁, v₁⟩ := e
    by_cases h₁ : k₁ = k
    · subst h₁
      simp [mapSet, mapGet, h.symm]
    · by_cases h₂ : k₁ = k'
      · subst h₂
        simp [mapSet, mapGet, h]
      · simp [mapSet, mapGet, h₁, h₂, ih]

theorem mapSet_absent {α : Type} (k : String) (v : α) (m : List (String × α))
    (h : mapGet k m = none) : mapSet k v m = m ++ [(k, v)] := by
  induction m with
  | nil => rfl
  | cons e m ih =>
    obtain ⟨k', v'⟩ := e
    by_cases hk : k' = k
    · simp [mapGet, hk] at h
    · simp only [mapGet, hk, if_false] at h
      simp [mapSet, hk, ih h]

theorem roleDocs_append (t u : List Request) : roleDocs (t ++ u) = roleDocs t ++ roleDocs u := by
  induction t with
  | nil => rfl
  | cons r t ih => cases r <;> simp [roleDocs, ih]

theorem policyDocs_append (t u : List Request) :
    policyDocs (t ++ u) = policyDocs t ++ policyDocs u := by
  induction t with
  | nil => rfl
  | cons r t ih => cases r <;> simp [policyDocs, ih]

theorem chartRequests_append (t u : List Request) :
    chartRequests (t ++ u) = chartRequests t ++ chartRequests u := by
  induction t with
  | nil => rfl
  | cons r t ih => cases r <;> simp [chartRequests, ih]

/-- With the three configuration values present, every run issues exactly one
role request, and it carries the trust document built from them. -/
theorem roleDocs_run (eng : Engine) (ctx : Context) (name : String) (args : Args)
    (opts : List ResourceOption) (arn url region : String)
    (harn : Require ctx "clusterautoscaler" "oidcArn" = .done arn)
    (hurl : Require ctx "clusterautoscaler" "oidcUrl" = .done url)
    (hregion : Require ctx "region" "region" = .done region) :
    roleDocs (NewClusterAutoscaler eng ctx name args opts).1
      = [assumeRolePolicyJSON arn url (serviceAccountName args.Namespace)] := by
  simp only [NewClusterAutoscaler, harn, hurl, hregion]
  split
  · simp [roleDocs]
  · split
    · simp [roleDocs]
    · split
      · split <;> simp [roleDocs, roleDocs_append]
      · split
        · split <;> simp [roleDocs, roleDocs_append]
        · split <;> simp [roleDocs, roleDocs_append]

/-- Every policy request of every run carries the fixed permission document. -/
theorem policyDocs_run (eng : Engine) (ctx : Context) (name : String) (args : Args)
    (opts : List ResourceOption) :
    ∀ d ∈ policyDocs (NewClusterAutoscaler eng ctx name args opts).1,
      d = clusterAutoScalerRolePolicyJSON := by
  simp only [NewClusterAutoscaler]
  split
  · simp [policyDocs]
  · split
    · simp [policyDocs]
    · split
      · simp [policyDocs]
      · split
        · simp [policyDocs]
        · split
          · simp [policyDocs]
          · split
            · split <;> simp [policyDocs, policyDocs_append]
            · split
              · split <;> simp [policyDocs, policyDocs_append]
              · split <;> simp [policyDocs, policyDocs_append]

theorem ptrOf_some {α : Type} (r : Except Error α) (a : α) (h : ptrOf r = some a) : r = .ok a := by
  cases r with
  | ok b => simpa [ptrOf] using h
  | error e => simp [ptrOf] at h

/-- The chart request of a run registers exactly one transformation, closed
over the role that the role request of the same run created. -/
theorem chartRequests_run (eng : Engine) (ctx : Context) (name : String) (args : Args)
    (opts : List ResourceOption) :
    ∀ c ∈ chartRequests (NewClusterAutoscaler eng ctx name args opts).1,
      ∃ roleArgs role,
        roleDocs (NewClusterAutoscaler eng ctx name args opts).1 = [roleArgs.AssumeRolePolicy] ∧
        eng.NewRole (name ++ "-iam-role") roleArgs = .ok role ∧
        c.Transformations = [transformation role] := by
  simp only [NewClusterAutoscaler]
  repeat' split
  all_goals simp [chartRequests, chartRequests_append, roleDocs, roleDocs_append]
  all_goals exact ⟨⟨_⟩, rfl, _, ptrOf_some _ _ (by assumption), rfl⟩

/-! ## C1: the trust document -/

/-- C1. For every namespace, OIDC provider ARN and issuer URL (read from the
configuration), the one role request of `NewClusterAutoscaler` carries a trust
document with exactly one statement: effect `Allow`, `Principal.Federated`
the ARN, action `sts:AssumeRoleWithWebIdentity`, and a `StringEquals`
condition with exactly one entry, keyed by the issuer URL followed by `:sub`,
whose value is `system:serviceaccount:`, the namespace, and
`:cluster-autoscaler-aws-cluster-autoscaler-chart`, nothing else. -/
theorem trust_document_shape (eng : Engine) (ctx : Context) (name : String) (args : Args)
    (opts : List ResourceOption) (arn url region : String)
    (harn : Require ctx "clusterautoscaler" "oidcArn" = .done arn)
    (hurl : Require ctx "clusterautoscaler" "oidcUrl" = .done url)
    (hregion : Require ctx "region" "region" = .done region) :
    ∃ doc stmt,
      roleDocs (NewClusterAutoscaler eng ctx name args opts).1 = [doc] ∧
      statements doc = [stmt] ∧
      stmt.field "Effect" = some (.str "Allow") ∧
      (stmt.field "Principal" >>= Value.field "Federated") = some (.str arn) ∧
      stmt.field "Action" = some (.str "sts:AssumeRoleWithWebIdentity") ∧
      (stmt.field "Condition" >>= Value.field "StringEquals")
        = some (.map [(url ++ ":sub",
            .str ("system:serviceaccount:" ++ args.Namespace ++
              ":cluster-autoscaler-aws-cluster-autoscaler-chart"))]) := by
  refine ⟨_, _, roleDocs_run eng ctx name args opts arn url region harn hurl hregion, rfl, ?_⟩
  simp [Value.field, mapGet, serviceAccountName]

/-- Witness of C1 on the end-to-end scenario: namespace `autoscaler-ns` gives
the condition value
`system:serviceaccount:autoscaler-ns:cluster-autoscaler-aws-cluster-autoscaler-chart`. -/
theorem trust_document_shape_witness :
    ∃ doc stmt,
      roleDocs (NewClusterAutoscaler okEngine exampleContext "ca" exampleArgs []).1 = [doc] ∧
      statements doc = [stmt] ∧
      stmt.field "Effect" = some (.str "Allow") ∧
      (stmt.field "Principal" >>= Value.field "Federated")
        = some (.str "arn:aws:iam::123:oidc-provider/x") ∧
      stmt.field "Action" = some (.str "sts:AssumeRoleWithWebIdentity") ∧
      (stmt.field "Condition" >>= Value.field "StringEquals")
        = some (.map [("oidc.eks.amazonaws.com/id/ABC:sub",
            .str "system:serviceaccount:autoscaler-ns:cluster-autoscaler-aws-cluster-autoscaler-chart")]) :=
  trust_document_shape okEngine exampleContext "ca" exampleArgs []
    "arn:aws:iam::123:oidc-provider/x" "oidc.eks.amazonaws.com/id/ABC" "us-east-1" rfl rfl rfl

/-! ## C2: round trip of the trust document -/

theorem first_two (s0 : Nat) (h : 0xC2 ≤ s0 ∧ s0 ≤ 0xDF) : first s0 = some (2, 0x80, 0xBF) := by
  simp [first, h]

theorem decodeRune_two (s0 s1 : Nat) (rest : GoString) (h0 : 0xC2 ≤ s0 ∧ s0 ≤ 0xDF)
    (h1 : 0x80 ≤ s1 ∧ s1 ≤ 0xBF) :
    DecodeRuneInString (s0 :: s1 :: rest) = (s0 % 32 * 64 + s1 % 64, 2) := by
  have hf := first_two s0 h0
  have a : ¬ s0 < 128 := by omega
  have b : ¬ (s1 < 128 ∨ 191 < s1) := by omega
  simp [DecodeRuneInString, hf, a, b]

theorem decodeRune_three (s0 s1 s2 lo hi : Nat) (rest : GoString) (h0 : 0x80 ≤ s0)
    (hf : first s0 = some (3, lo, hi))
    (h1 : lo ≤ s1 ∧ s1 ≤ hi) (h2 : 0x80 ≤ s2 ∧ s2 ≤ 0xBF) :
    DecodeRuneInString (s0 :: s1 :: s2 :: rest) = (s0 % 16 * 4096 + s1 % 64 * 64 + s2 % 64, 3) := by
  have a : ¬ s0 < 128 := by omega
  have b : ¬ (s1 < lo ∨ hi < s1) := by omega
  have c : ¬ (s2 < 128 ∨ 191 < s2) := by omega
  simp [DecodeRuneInString, hf, a, b, c]

theorem decodeRune_four (s0 s1 s2 s3 lo hi : Nat) (rest : GoString) (h0 : 0x80 ≤ s0)
    (hf : first s0 = some (4, lo, hi))
    (h1 : lo ≤ s1 ∧ s1 ≤ hi) (h2 : 0x80 ≤ s2 ∧ s2 ≤ 0xBF) (h3 : 0x80 ≤ s3 ∧ s3 ≤ 0xBF) :
    DecodeRuneInString (s0 :: s1 :: s2 :: s3 :: rest)
      = (s0 % 8 * 262144 + s1 % 64 * 4096 + s2 % 64 * 64 + s3 % 64, 4) := by
  have a : ¬ s0 < 128 := by omega
  have b : ¬ (s1 < lo ∨ hi < s1) := by omega
  have c : ¬ (s2 < 128 ∨ 191 < s2) := by omega
  have d : ¬ (s3 < 128 ∨ 191 < s3) := by omega
  simp [DecodeRuneInString, hf, a, b, c, d]

theorem first_three (s0 : Nat) (h : 0xE0 ≤ s0 ∧ s0 ≤ 0xEF) :
    first s0 = some (3, if s0 = 0xE0 then 0xA0 else 0x80, if s0 = 0xED then 0x9F else 0xBF) := by
  unfold first
  split_ifs <;> first | rfl | omega

theorem first_four (s0 : Nat) (h : 0xF0 ≤ s0 ∧ s0 ≤ 0xF4) :
    first s0 = some (4, if s0 = 0xF0 then 0x90 else 0x80, if s0 = 0xF4 then 0x8F else 0xBF) := by
  unfold first
  split_ifs <;> first | rfl | omega

theorem decodeRune_encodeRune (n : Nat) (rest : GoString) (h80 : 0x80 ≤ n)
    (hv : n < 0xD800 ∨ (0xDFFF < n ∧ n < 0x110000)) :
    DecodeRuneInString (encodeRune n ++ rest) = (n, (encodeRune n).length) := by
  unfold encodeRune
  rw [if_neg (by omega)]
  split
  · rw [List.cons_append, List.cons_append, List.nil_append,
      decodeRune_two _ _ _ (by omega) (by omega)]
    simp only [List.length_cons, List.length_nil, Prod.mk.injEq, and_true]
    omega
  · split
    · rw [List.cons_append, List.cons_append, List.cons_append, List.nil_append,
        decodeRune_three _ _ _ _ _ _ (by omega) (first_three _ (by omega)) (by split_ifs <;> omega)
          (by omega)]
      simp only [List.length_cons, List.length_nil, Prod.mk.injEq, and_true]
      omega
    · rw [List.cons_append, List.cons_append, List.cons_append, List.cons_append, List.nil_append,
        decodeRune_four _ _ _ _ _ _ _ (by omega) (first_four _ (by omega)) (by split_ifs <;> omega)
          (by omega) (by omega)]
      simp only [List.length_cons, List.length_nil, Prod.mk.injEq, and_true]
      omega


theorem stringBodyLoop_fuel (f1 : Nat) : ∀ (f2 : Nat) (s : GoString),
    s.length ≤ f1 → s.length ≤ f2 → stringBodyLoop f1 s = stringBodyLoop f2 s := by
  induction f1 with
  | zero =>
    intro f2 s h1 _
    have : s = [] := List.length_eq_zero.mp (by omega)
    subst this
    cases f2 <;> rfl
  | succ k ih =>
    intro f2 s h1 h2
    cases s with
    | nil => cases f2 <;> rfl
    | cons b0 rest =>
      cases f2 with
      | zero => simp at h2
      | succ m =>
        simp only [List.length_cons] at h1 h2
        simp only [stringBodyLoop]
        have e0 : stringBodyLoop k rest = stringBodyLoop m rest := ih m rest (by omega) (by omega)
        have e1 : ∀ j, stringBodyLoop k (rest.drop j) = stringBodyLoop m (rest.drop j) := by
          intro j
          have := List.length_drop j rest
          exact ih m _ (by omega) (by omega)
        rw [e0, e1]

theorem stringBody_nil : stringBody [] = [] := rfl

theorem stringBody_ascii (b : Nat) (rest : GoString) (h : b < 0x80) :
    stringBody (b :: rest) = appendByte b ++ stringBody rest := by
  simp [stringBody, stringBodyLoop, h]

theorem stringBody_wide (b0 n : Nat) (e rest tail : GoString) (htail : tail = e ++ rest)
    (h0 : 0x80 ≤ b0) (hd : DecodeRuneInString (b0 :: tail) = (n, e.length + 1)) (he : 1 ≤ e.length) :
    stringBody (b0 :: tail) = appendWide n (b0 :: e) ++ stringBody rest := by
  have a : ¬ b0 < 128 := by omega
  simp only [stringBody, List.length_cons, stringBodyLoop, if_neg a, hd]
  rw [if_neg (by rintro ⟨-, h⟩; omega)]
  subst htail
  simp only [Nat.add_sub_cancel, List.take_succ_cons, List.take_left', List.drop_left']
  rw [stringBodyLoop_fuel (e ++ rest).length rest.length rest (by simp) (le_refl _)]

theorem hexValue_hexDigit : ∀ n, n < 16 → hexValue (hexDigit n) = some n := by decide

theorem readStringBody_cons (b : Nat) (rest : List Nat) :
    readStringBody (b :: rest) =
      if b = 34 then some ([], rest)
      else if b = 92 then
        match rest with
        | [] => none
        | e :: rest1 =>
          if e = 117 then
            match rest1 with
            | a :: b' :: c :: d :: rest2 =>
              match hex4 a b' c d with
              | some n => prepend (encodeRune n) (readStringBody rest2)
              | none => none
            | _ => none
          else
            match shortEscape e with
            | some ch => prepend [ch] (readStringBody rest1)
            | none => none
      else prepend [b] (readStringBody rest) := by
  rw [readStringBody.eq_def]

theorem readStringBody_plain (b : Nat) (t : List Nat) (h1 : b ≠ 34) (h2 : b ≠ 92) :
    readStringBody (b :: t) = prepend [b] (readStringBody t) := by
  rw [readStringBody_cons, if_neg h1, if_neg h2]

theorem readStringBody_short (e ch : Nat) (t : List Nat) (hu : e ≠ 117)
    (hs : shortEscape e = some ch) :
    readStringBody (92 :: e :: t) = prepend [ch] (readStringBody t) := by
  rw [readStringBody_cons, if_neg (by decide), if_pos rfl]
  simp only [if_neg hu, hs]

theorem readStringBody_hex (a b c d n : Nat) (t : List Nat) (h : hex4 a b c d = some n) :
    readStringBody (92 :: 117 :: a :: b :: c :: d :: t)
      = prepend (encodeRune n) (readStringBody t) := by
  rw [readStringBody_cons, if_neg (by decide), if_pos rfl]
  simp only [if_true, h]

theorem hex4_low (n : Nat) (h : n < 128) :
    hex4 48 48 (hexDigit (n / 16)) (hexDigit (n % 16)) = some n := by
  have h1 : hexValue (hexDigit (n / 16)) = some (n / 16) := hexValue_hexDigit _ (by omega)
  have h2 : hexValue (hexDigit (n % 16)) = some (n % 16) := hexValue_hexDigit _ (by omega)
  have h0 : hexValue 48 = some 0 := by decide
  simp only [hex4, h0, h1, h2]
  congr 1
  omega

theorem prepend_prepend (a b : List Nat) (x : Option (GoString × List Nat)) :
    prepend a (prepend b x) = prepend (a ++ b) x := by
  cases x with
  | none => rfl
  | some p => simp [prepend]

theorem readStringBody_appendByte (b : Nat) (t : List Nat) (hb : b < 0x80) :
    readStringBody (appendByte b ++ t) = prepend [b] (readStringBody t) := by
  unfold appendByte
  split
  · next hsafe =>
    simp only [htmlSafe, Bool.and_eq_true, decide_eq_true_eq, Bool.not_eq_true',
      Bool.or_eq_false_iff, decide_eq_false_iff_not] at hsafe
    exact readStringBody_plain b t hsafe.2.1.1.1.1 hsafe.2.2
  · split
    · next h =>
      rcases h with h | h <;> subst h <;> exact readStringBody_short _ _ t (by decide) (by decide)
    · split
      · next h =>
        subst h
        exact readStringBody_short 110 _ t (by decide) (by decide)
      · split
        · next h =>
          subst h
          exact readStringBody_short 114 _ t (by decide) (by decide)
        · split
          · next h =>
            subst h
            exact readStringBody_short 116 _ t (by decide) (by decide)
          · have := readStringBody_hex 48 48 (hexDigit (b / 16)) (hexDigit (b % 16)) b t
              (hex4_low b hb)
            simpa [encodeRune, hb] using this

theorem readStringBody_appendWide (n : Nat) (t : List Nat) (h80 : 0x80 ≤ n)
    (hv : n < 0xD800 ∨ (0xDFFF < n ∧ n < 0x110000)) :
    readStringBody (appendWide n (encodeRune n) ++ t) = prepend (encodeRune n) (readStringBody t) := by
  unfold appendWide
  split
  · next h =>
    rcases h with h | h <;> subst h <;> exact readStringBody_hex 50 48 50 _ _ t (by decide)
  · unfold encodeRune
    rw [if_neg (by omega)]
    split
    · simp only [List.cons_append, List.nil_append]
      rw [readStringBody_plain _ _ (by omega) (by omega),
        readStringBody_plain _ _ (by omega) (by omega), prepend_prepend]
      rfl
    · split
      · simp only [List.cons_append, List.nil_append]
        rw [readStringBody_plain _ _ (by omega) (by omega),
          readStringBody_plain _ _ (by omega) (by omega),
          readStringBody_plain _ _ (by omega) (by omega), prepend_prepend, prepend_prepend]
        rfl
      · simp only [List.cons_append, List.nil_append]
        rw [readStringBody_plain _ _ (by omega) (by omega),
          readStringBody_plain _ _ (by omega) (by omega),
          readStringBody_plain _ _ (by omega) (by omega),
          readStringBody_plain _ _ (by omega) (by omega),
          prepend_prepend, prepend_prepend, prepend_prepend]
        rfl

theorem char_valid (c : Char) : c.toNat < 0xD800 ∨ (0xDFFF < c.toNat ∧ c.toNat < 0x110000) := by
  have := c.valid
  simpa [Char.toNat, UInt32.isValidChar, Nat.isValidChar] using this

theorem encodeRune_wide (n : Nat) (h : 0x80 ≤ n) :
    ∃ b0 e, encodeRune n = b0 :: e ∧ 0x80 ≤ b0 ∧ 1 ≤ e.length := by
  unfold encodeRune
  rw [if_neg (by omega)]
  split
  · exact ⟨_, _, rfl, by omega, by simp⟩
  · split
    · exact ⟨_, _, rfl, by omega, by simp⟩
    · exact ⟨_, _, rfl, by omega, by simp⟩

theorem stringBody_encodeRune (c : Char) (rest : GoString) :
    stringBody (encodeRune c.toNat ++ rest)
      = (if c.toNat < 0x80 then appendByte c.toNat else appendWide c.toNat (encodeRune c.toNat))
        ++ stringBody rest := by
  by_cases h : c.toNat < 0x80
  · rw [if_pos h]
    simp only [encodeRune, if_pos h, List.cons_append, List.nil_append]
    exact stringBody_ascii _ _ h
  · rw [if_neg h]
    have hd := decodeRune_encodeRune c.toNat rest (by omega) (char_valid c)
    obtain ⟨b0, e, he, hb0, hlen⟩ := encodeRune_wide c.toNat (by omega)
    rw [he] at hd ⊢
    exact stringBody_wide b0 c.toNat e rest (e ++ rest) rfl hb0 hd hlen

theorem readStringBody_stringBody (cs : List Char) (t : List Nat) :
    readStringBody (stringBody (utf8Chars cs) ++ 34 :: t) = some (utf8Chars cs, t) := by
  induction cs with
  | nil =>
    rw [utf8Chars, stringBody_nil, List.nil_append, readStringBody_cons, if_pos rfl]
  | cons c cs ih =>
    rw [utf8Chars, stringBody_encodeRune, List.append_assoc]
    by_cases h : c.toNat < 0x80
    · rw [if_pos h, readStringBody_appendByte _ _ h, ih]
      simp [prepend, encodeRune, h]
    · rw [if_neg h, readStringBody_appendWide _ _ (by omega) (char_valid c), ih]
      simp [prepend]

theorem utf8Chars_append (a b : List Char) : utf8Chars (a ++ b) = utf8Chars a ++ utf8Chars b := by
  induction a with
  | nil => rfl
  | cons c a ih => simp [utf8Chars, ih]


set_option maxRecDepth 100000 in
theorem Marshal_assumeRolePolicyGo (a u p : GoString) :
    Marshal (assumeRolePolicyGo a u p)
      = trustHead ++ (stringBody (u ++ utf8 ":sub") ++ (34 :: (trustColon ++
          (stringBody p ++ (34 :: (trustMiddle ++ (stringBody a ++ (34 :: trustTail)))))))) := by
  have s1 : ∀ v1 v2 : List Nat, sortFields [(utf8 "Version", v1), (utf8 "Statement", v2)]
      = [(utf8 "Statement", v2), (utf8 "Version", v1)] := fun _ _ => rfl
  have s2 : ∀ v1 v2 v3 v4 : List Nat,
      sortFields [(utf8 "Effect", v1), (utf8 "Principal", v2), (utf8 "Action", v3),
        (utf8 "Condition", v4)]
      = [(utf8 "Action", v3), (utf8 "Condition", v4), (utf8 "Effect", v1),
        (utf8 "Principal", v2)] := fun _ _ _ _ => rfl
  simp only [assumeRolePolicyGo, Marshal, marshalList, marshalFields, s1, s2, sortFields,
    insertField, joinFields, joinElems, appendString, List.append_assoc, List.cons_append,
    List.nil_append]
  rfl


theorem stripPrefixBytes_append (p t : List Nat) : stripPrefixBytes p (p ++ t) = some t := by
  induction p with
  | nil => rfl
  | cons b p ih => simp [stripPrefixBytes, ih]

theorem stripSuffixBytes_append (s suf : List Nat) : stripSuffixBytes suf (s ++ suf) = some s := by
  simp [stripSuffixBytes, List.reverse_append, stripPrefixBytes_append]

theorem utf8_append (a b : String) : utf8 (a ++ b) = utf8 a ++ utf8 b := by
  simp [utf8, utf8Chars_append]


theorem decodeRune_encodeRune_char (c : Char) (rest : GoString) :
    DecodeRuneInString (encodeRune c.toNat ++ rest)
      = (c.toNat, (encodeRune c.toNat).length) := by
  by_cases h : c.toNat < 0x80
  · simp [encodeRune, DecodeRuneInString, h]
  · exact decodeRune_encodeRune c.toNat rest (by omega) (char_valid c)

theorem encodeRune_ne_nil (n : Nat) : encodeRune n ≠ [] := by
  unfold encodeRune
  split_ifs <;> simp

theorem utf8Chars_injective : ∀ cs ds : List Char, utf8Chars cs = utf8Chars ds → cs = ds := by
  intro cs
  induction cs with
  | nil =>
    intro ds h
    cases ds with
    | nil => rfl
    | cons d ds =>
      rw [utf8Chars, utf8Chars] at h
      exact absurd (List.append_eq_nil.mp h.symm).1 (encodeRune_ne_nil _)
  | cons c cs ih =>
    intro ds h
    cases ds with
    | nil =>
      rw [utf8Chars, utf8Chars] at h
      exact absurd (List.append_eq_nil.mp h).1 (encodeRune_ne_nil _)
    | cons d ds =>
      rw [utf8Chars, utf8Chars] at h
      have hd := congrArg DecodeRuneInString h
      rw [decodeRune_encodeRune_char, decodeRune_encodeRune_char] at hd
      have hn : c.toNat = d.toNat := (Prod.mk.inj hd).1
      have hc : c = d := by rw [← Char.ofNat_toNat c, ← Char.ofNat_toNat d, hn]
      subst hc
      rw [ih ds (List.append_cancel_left h)]

theorem utf8_injective (a b : String) (h : utf8 a = utf8 b) : a = b :=
  String.ext (utf8Chars_injective _ _ h)

theorem readTrustText_Marshal (arn url principal : String) :
    readTrustText (Marshal (assumeRolePolicyGo (utf8 arn) (utf8 url) (utf8 principal)))
      = some (utf8 arn, utf8 url, utf8 principal) := by
  rw [Marshal_assumeRolePolicyGo, ← utf8_append]
  simp only [readTrustText, stripPrefixBytes_append, utf8, readStringBody_stringBody, if_true]
  rw [show utf8Chars (url ++ ":sub").data = utf8Chars url.data ++ utf8Chars ":sub".data from by
    rw [String.data_append, utf8Chars_append]]
  rw [stripSuffixBytes_append]

theorem toGo_assumeRolePolicyJSON (arn url principal : String) :
    (assumeRolePolicyJSON arn url principal).toGo
      = some (assumeRolePolicyGo (utf8 arn) (utf8 url) (utf8 principal)) := by
  simp [assumeRolePolicyJSON, assumeRolePolicyGo, Value.toGo, listToGo, fieldsToGo, utf8_append]

set_option maxRecDepth 1000000 in
/-- C2, as stated, fails on the text `json.Marshal` produces. The principals
built from the namespaces `6e 73 ff 78` and `6e 73 fe 78` are non-empty and
differ, yet with the same ARN and issuer URL they give the same trust
document; and reading the document of the first back yields the principal of
the namespace `ns`, U+FFFD, `x`, not the principal it was built from. -/
theorem trust_text_round_trip_counterexample :
    exampleArnBytes ≠ [] ∧ exampleUrlBytes ≠ [] ∧
    goServiceAccountName namespaceFF ≠ [] ∧
    goServiceAccountName namespaceFE ≠ [] ∧
    goServiceAccountName namespaceFF ≠ goServiceAccountName namespaceFE ∧
    Marshal (assumeRolePolicyGo exampleArnBytes exampleUrlBytes (goServiceAccountName namespaceFF))
      = Marshal (assumeRolePolicyGo exampleArnBytes exampleUrlBytes
          (goServiceAccountName namespaceFE)) ∧
    readTrustText
        (Marshal (assumeRolePolicyGo exampleArnBytes exampleUrlBytes
          (goServiceAccountName namespaceFF)))
      = some (exampleArnBytes, exampleUrlBytes, goServiceAccountName (utf8 "ns\uFFFDx")) ∧
    goServiceAccountName (utf8 "ns\uFFFDx") ≠ goServiceAccountName namespaceFF := by
  refine ⟨by decide, by decide, by decide, by decide, by decide, ?_, ?_, by decide⟩
  · rfl
  · rfl

/-- C2, amended. For every ARN, issuer URL and principal that are valid UTF-8
(the Go strings of texts, empty or not), the trust document of lines 67-83 is,
as Go strings, `assumeRolePolicyGo`; reading its `json.Marshal` text back
(federated principal, condition key without its `:sub` ending, condition
value) recovers the three inputs; hence two such triples with the same text
are equal. -/
theorem trust_text_round_trip (arn url principal : String) :
    (assumeRolePolicyJSON arn url principal).toGo
      = some (assumeRolePolicyGo (utf8 arn) (utf8 url) (utf8 principal)) ∧
    readTrustText (Marshal (assumeRolePolicyGo (utf8 arn) (utf8 url) (utf8 principal)))
      = some (utf8 arn, utf8 url, utf8 principal) ∧
    ∀ arn' url' principal' : String,
      Marshal (assumeRolePolicyGo (utf8 arn) (utf8 url) (utf8 principal))
        = Marshal (assumeRolePolicyGo (utf8 arn') (utf8 url') (utf8 principal')) →
      arn = arn' ∧ url = url' ∧ principal = principal' := by
  refine ⟨toGo_assumeRolePolicyJSON arn url principal,
    readTrustText_Marshal arn url principal, ?_⟩
  intro arn' url' principal' h
  have h' := congrArg readTrustText h
  rw [readTrustText_Marshal, readTrustText_Marshal] at h'
  simp only [Option.some.injEq, Prod.mk.injEq] at h'
  exact ⟨utf8_injective _ _ h'.1, utf8_injective _ _ h'.2.1, utf8_injective _ _ h'.2.2⟩

/-! ## C3: the permission document -/

/-- C3. The permission document is the same in every run: every policy request
carries `clusterAutoScalerRolePolicyJSON` (and the run of the end-to-end
scenario issues one), which has one statement with effect
`Allow`, resource `*` and exactly the six fixed autoscaling actions; the list
is not empty, every action starts with `autoscaling:` and none contains `*`. -/
theorem permission_document_fixed :
    policyDocs (NewClusterAutoscaler okEngine exampleContext "ca" exampleArgs []).1
      = [clusterAutoScalerRolePolicyJSON] ∧
    (∀ (eng : Engine) (ctx : Context) (name : String) (args : Args) (opts : List ResourceOption),
      ∀ d ∈ policyDocs (NewClusterAutoscaler eng ctx name args opts).1,
        d = clusterAutoScalerRolePolicyJSON) ∧
    (∃ stmt, statements clusterAutoScalerRolePolicyJSON = [stmt] ∧
      stmt.field "Effect" = some (.str "Allow") ∧
      stmt.field "Resource" = some (.str "*") ∧
      actionsOf stmt = fixedActions ∧
      actionsOf stmt ≠ [] ∧
      ∀ a ∈ actionsOf stmt, "autoscaling:".data <+: a.data ∧ '*' ∉ a.data) := by
  refine ⟨rfl, policyDocs_run, _, rfl, rfl, rfl, rfl, ?_, ?_⟩
  · decide
  · decide

/-! ## C4, C5, C9, C10: the transformation -/

theorem kindIsServiceAccount_iff (state : Obj) :
    kindIsServiceAccount state = true ↔ mapGet "kind" state = some (.str "ServiceAccount") := by
  unfold kindIsServiceAccount
  split
  · next s h => simp [h]
  · next h =>
    constructor
    · intro hf
      exact absurd hf (by simp)
    · intro hk
      exact absurd hk (h "ServiceAccount")

/-- What the transformation does to a ServiceAccount whose metadata is a
string-keyed map. -/
theorem transformation_serviceAccount (role : Role) (state metadata : Obj)
    (hkind : mapGet "kind" state = some (.str "ServiceAccount"))
    (hmeta : mapGet "metadata" state = some (.map metadata)) :
    transformation role state
      = .done (mapSet "metadata"
          (.map (mapSet "annotations"
            (.map [("eks.amazonaws.com/role-arn", .output role.Arn)]) metadata)) state) := by
  simp [transformation, (kindIsServiceAccount_iff state).mpr hkind, hmeta]

/-- C4. Take the transformation registered by the chart request of any run of
`NewClusterAutoscaler`. On every object of kind `ServiceAccount` whose
metadata has no annotations entry it completes without panicking, and
afterwards `metadata.annotations["eks.amazonaws.com/role-arn"]` is the ARN
output of the role created by the role request of the same run: the deferred
handle itself, not a resolved string. The metadata is the former one with the
annotations entry added. -/
theorem hook_sets_role_arn (eng : Engine) (ctx : Context) (name : String) (args : Args)
    (opts : List ResourceOption) (c : ChartArgs) (hook : Transformation) (state metadata : Obj)
    (hc : c ∈ chartRequests (NewClusterAutoscaler eng ctx name args opts).1)
    (hh : hook ∈ c.Transformations)
    (hkind : mapGet "kind" state = some (.str "ServiceAccount"))
    (hmeta : mapGet "metadata" state = some (.map metadata))
    (hann : mapGet "annotations" metadata = none) :
    ∃ roleArgs role state',
      roleDocs (NewClusterAutoscaler eng ctx name args opts).1 = [roleArgs.AssumeRolePolicy] ∧
      eng.NewRole (name ++ "-iam-role") roleArgs = .ok role ∧
      hook state = .done state' ∧
      annotationValue "eks.amazonaws.com/role-arn" state' = some (.output role.Arn) ∧
      mapGet "metadata" state' = some (.map (metadata ++
        [("annotations", .map [("eks.amazonaws.com/role-arn", .output role.Arn)])])) := by
  obtain ⟨roleArgs, role, hdocs, hrole, htr⟩ := chartRequests_run eng ctx name args opts c hc
  rw [htr, List.mem_singleton] at hh
  subst hh
  refine ⟨roleArgs, role, _, hdocs, hrole,
    transformation_serviceAccount role state metadata hkind hmeta, ?_, ?_⟩
  · simp [annotationValue, mapGet_mapSet_self, Value.field, mapGet]
  · rw [mapGet_mapSet_self, mapSet_absent _ _ _ hann]

/-- Witness of C4: the end-to-end scenario, on a ServiceAccount without
annotations. -/
theorem hook_sets_role_arn_witness :
    ∃ roleArgs role state',
      roleDocs (NewClusterAutoscaler okEngine exampleContext "ca" exampleArgs []).1
        = [roleArgs.AssumeRolePolicy] ∧
      okEngine.NewRole ("ca" ++ "-iam-role") roleArgs = .ok role ∧
      transformation exampleRole plainServiceAccount = .done state' ∧
      annotationValue "eks.amazonaws.com/role-arn" state' = some (.output role.Arn) ∧
      mapGet "metadata" state' = some (.map
        [("name", .str "cluster-autoscaler-aws-cluster-autoscaler-chart"),
         ("annotations", .map [("eks.amazonaws.com/role-arn", .output role.Arn)])]) :=
  hook_sets_role_arn okEngine exampleContext "ca" exampleArgs [] exampleChartArgs
    (transformation exampleRole) plainServiceAccount
    [("name", .str "cluster-autoscaler-aws-cluster-autoscaler-chart")]
    (List.Mem.head _) (List.Mem.head _) rfl rfl rfl

/-- C5. On every object whose kind is not the string `ServiceAccount` (no kind
field and a kind that is not a string included) the transformation completes
without panicking and leaves the whole object as it was. -/
theorem hook_other_kind_unchanged (role : Role) (state : Obj)
    (hkind : mapGet "kind" state ≠ some (.str "ServiceAccount")) :
    transformation role state = .done state := by
  have h : kindIsServiceAccount state = false := by
    cases hk : kindIsServiceAccount state with
    | false => rfl
    | true => exact absurd ((kindIsServiceAccount_iff state).mp hk) hkind
  simp [transformation, h]

/-- Witness of C5: a Deployment with annotations is left as it was. -/
theorem hook_other_kind_unchanged_witness :
    transformation exampleRole exampleDeployment = .done exampleDeployment :=
  hook_other_kind_unchanged exampleRole exampleDeployment
    (by simp [exampleDeployment, mapGet])

/-- C9, as stated, fails: a ServiceAccount holding the annotation `team` loses
it. Before the transformation `metadata.annotations["team"]` is `infra`, after
it the key is absent. -/
theorem hook_keeps_annotations_counterexample :
    mapGet "kind" annotatedServiceAccount = some (.str "ServiceAccount") ∧
    annotationValue "team" annotatedServiceAccount = some (.str "infra") ∧
    ∃ state', transformation exampleRole annotatedServiceAccount = .done state' ∧
      annotationValue "eks.amazonaws.com/role-arn" state' = some (.output exampleRole.Arn) ∧
      annotationValue "team" state' = none :=
  ⟨rfl, rfl, _, rfl, rfl, rfl⟩

/-- C9, amended. On every object of kind `ServiceAccount` whose metadata is a
string-keyed map, whatever annotations it holds, the transformation replaces
`metadata.annotations` by a new map with the single entry
`eks.amazonaws.com/role-arn`, set to the role's ARN output: afterwards that
key maps to the reference and no other annotation key is present. -/
theorem hook_replaces_annotations (role : Role) (state metadata : Obj)
    (hkind : mapGet "kind" state = some (.str "ServiceAccount"))
    (hmeta : mapGet "metadata" state = some (.map metadata)) :
    ∃ state' metadata',
      transformation role state = .done state' ∧
      mapGet "metadata" state' = some (.map metadata') ∧
      mapGet "annotations" metadata'
        = some (.map [("eks.amazonaws.com/role-arn", .output role.Arn)]) ∧
      annotationValue "eks.amazonaws.com/role-arn" state' = some (.output role.Arn) ∧
      ∀ k, k ≠ "eks.amazonaws.com/role-arn" → annotationValue k state' = none := by
  refine ⟨_, _, transformation_serviceAccount role state metadata hkind hmeta,
    mapGet_mapSet_self _ _ _, mapGet_mapSet_self _ _ _, ?_, ?_⟩
  · simp [annotationValue, mapGet_mapSet_self, Value.field, mapGet]
  · intro k hk
    simp [annotationValue, mapGet_mapSet_self, Value.field, mapGet, hk.symm]

/-- Witness of the amended C9, on a ServiceAccount that holds an annotation. -/
theorem hook_replaces_annotations_witness :
    ∃ state' metadata',
      transformation exampleRole annotatedServiceAccount = .done state' ∧
      mapGet "metadata" state' = some (.map metadata') ∧
      mapGet "annotations" metadata'
        = some (.map [("eks.amazonaws.com/role-arn", .output exampleRole.Arn)]) ∧
      annotationValue "eks.amazonaws.com/role-arn" state' = some (.output exampleRole.Arn) ∧
      ∀ k, k ≠ "eks.amazonaws.com/role-arn" → annotationValue k state' = none :=
  hook_replaces_annotations exampleRole annotatedServiceAccount
    [("name", .str "cluster-autoscaler-aws-cluster-autoscaler-chart"),
     ("annotations", .map [("team", .str "infra")])] rfl rfl

/-- C10. The transformation panics exactly when the object's kind is the
string `ServiceAccount` and its metadata field is absent or not a string-keyed
map. On a ServiceAccount whose metadata is a string-keyed map it completes,
and afterwards the metadata is a map in which every field other than
`annotations` reads as before, and every field of the object other than
`metadata` reads as before. On every object on which it does not panic it
completes. -/
theorem hook_panics_iff (role : Role) (state : Obj) :
    ((∃ msg, transformation role state = .panic msg) ↔
      (mapGet "kind" state = some (.str "ServiceAccount") ∧
        ∀ metadata, mapGet "metadata" state ≠ some (.map metadata))) ∧
    (∀ metadata, mapGet "kind" state = some (.str "ServiceAccount") →
      mapGet "metadata" state = some (.map metadata) →
      ∃ state' metadata',
        transformation role state = .done state' ∧
        mapGet "metadata" state' = some (.map metadata') ∧
        (∀ k, k ≠ "annotations" → mapGet k metadata' = mapGet k metadata) ∧
        (∀ k, k ≠ "metadata" → mapGet k state' = mapGet k state)) ∧
    ((¬ ∃ msg, transformation role state = .panic msg) →
      ∃ state', transformation role state = .done state') := by
  refine ⟨?_, ?_, ?_⟩
  · constructor
    · rintro ⟨msg, hp⟩
      by_cases hk : kindIsServiceAccount state = true
      · refine ⟨(kindIsServiceAccount_iff state).mp hk, ?_⟩
        intro metadata hm
        rw [transformation_serviceAccount role state metadata
          ((kindIsServiceAccount_iff state).mp hk) hm] at hp
        cases hp
      · simp [transformation, hk] at hp
    · rintro ⟨hkind, hmeta⟩
      refine ⟨"interface conversion: metadata is not a string-keyed map", ?_⟩
      simp only [transformation, (kindIsServiceAccount_iff state).mpr hkind, if_true]
  · intro metadata hkind hmeta
    refine ⟨_, _, transformation_serviceAccount role state metadata hkind hmeta,
      mapGet_mapSet_self _ _ _, ?_, ?_⟩
    · intro k hk
      exact mapGet_mapSet_other _ _ _ _ hk
    · intro k hk
      exact mapGet_mapSet_other _ _ _ _ hk
  · intro hnp
    cases h : transformation role state with
    | done state' => exact ⟨state', rfl⟩
    | panic msg => exact absurd ⟨msg, h⟩ hnp

/-! ## C6, C7, C8: the constructor -/

theorem kinds_append (t u : List Request) : kinds (t ++ u) = kinds t ++ kinds u := by
  simp [kinds]

/-- C6, evaluated on the code. In the end-to-end scenario every request
succeeds and the returned component has the zero `Args` (`ClusterName` is the
empty string, not `prod-1`) and an `ID` that is none of the role's outputs. In
every run that returns a component, the component is what the engine made of
the zero value `ClusterAutoscaler{}` on registration: the constructor assigns
neither `Args` nor `ID`, and the registration is not given `args`. -/
theorem component_outputs_never_assigned :
    (NewClusterAutoscaler okEngine exampleContext "ca" exampleArgs []).2
      = .done (.ok registeredZero) ∧
    registeredZero.Args.ClusterName = "" ∧
    registeredZero.Args ≠ exampleArgs ∧
    registeredZero.ID ≠ some exampleRole.ID ∧
    registeredZero.ID ≠ some exampleRole.Arn ∧
    (∀ (eng : Engine) (ctx : Context) (name : String) (args : Args)
      (opts : List ResourceOption) (ca : ClusterAutoscaler),
      (NewClusterAutoscaler eng ctx name args opts).2 = .done (.ok ca) →
      eng.RegisterComponentResource "jaxxstorm:clusterautoscaler" name
        ClusterAutoscaler.zero opts = .ok ca) := by
  refine ⟨rfl, rfl, by decide, by decide, by decide, ?_⟩
  intro eng ctx name args opts ca
  simp only [NewClusterAutoscaler]
  repeat' split
  all_goals simp
  all_goals
    intro h
    subst h
    assumption

/-- C7, evaluated on the code. When the chart request fails, and when the
attachment request fails, all six requests are issued and a component is
returned with no error. When the role request fails, the policy request is
still issued, with a nil parent, and the call panics on the nil role instead
of returning the role's error. -/
theorem unchecked_errors_run :
    (NewClusterAutoscaler chartFailsEngine exampleContext "ca" exampleArgs []).2
      = .done (.ok registeredZero) ∧
    kinds (NewClusterAutoscaler chartFailsEngine exampleContext "ca" exampleArgs []).1
      = [.role, .policy, .attachment, .kubeNamespace, .chart, .component] ∧
    (NewClusterAutoscaler attachmentFailsEngine exampleContext "ca" exampleArgs []).2
      = .done (.ok registeredZero) ∧
    kinds (NewClusterAutoscaler attachmentFailsEngine exampleContext "ca" exampleArgs []).1
      = [.role, .policy, .attachment, .kubeNamespace, .chart, .component] ∧
    (NewClusterAutoscaler roleFailsEngine exampleContext "ca" exampleArgs []).2
      = .panic "invalid memory address or nil pointer dereference" ∧
    kinds (NewClusterAutoscaler roleFailsEngine exampleContext "ca" exampleArgs []).1
      = [.role, .policy] ∧
    policyParents (NewClusterAutoscaler roleFailsEngine exampleContext "ca" exampleArgs []).1
      = [none] :=
  ⟨rfl, rfl, rfl, rfl, rfl, rfl, rfl⟩

/-- C8, as stated, fails: in the end-to-end scenario (`CreateNamespace` true,
every request succeeding) the namespace request is the fourth one, after the
role, policy and attachment requests, not before them. -/
theorem namespace_first_counterexample :
    exampleArgs.CreateNamespace = true ∧
    kinds (NewClusterAutoscaler okEngine exampleContext "ca" exampleArgs []).1
      = [.role, .policy, .attachment, .kubeNamespace, .chart, .component] ∧
    ¬ ((kinds (NewClusterAutoscaler okEngine exampleContext "ca" exampleArgs []).1).indexOf
          .kubeNamespace
        < (kinds (NewClusterAutoscaler okEngine exampleContext "ca" exampleArgs []).1).indexOf
          .role) := by
  decide

/-- C8, amended. With `CreateNamespace` true and the configuration present,
every run issues the role request and then the policy request, and its
requests are, in order, a beginning of: role, policy, attachment, namespace,
chart, component registration. When the role and the policy requests succeed,
the attachment request and then the namespace request follow; when the
namespace request succeeds too, all six requests are issued in that order,
whatever the attachment, chart and registration requests yield. So the
namespace request comes after the identity requests, the chart request after
the namespace request, and the requests issued after the namespace (chart,
component registration) follow it. -/
theorem request_order (eng : Engine) (ctx : Context) (name : String) (args : Args)
    (opts : List ResourceOption) (arn url region : String)
    (hns : args.CreateNamespace = true)
    (harn : Require ctx "clusterautoscaler" "oidcArn" = .done arn)
    (hurl : Require ctx "clusterautoscaler" "oidcUrl" = .done url)
    (hregion : Require ctx "region" "region" = .done region) :
    kinds (NewClusterAutoscaler eng ctx name args opts).1
      <+: [.role, .policy, .attachment, .kubeNamespace, .chart, .component] ∧
    [.role, .policy] <+: kinds (NewClusterAutoscaler eng ctx name args opts).1 ∧
    (∀ role policy,
      eng.NewRole (name ++ "-iam-role")
        { AssumeRolePolicy := assumeRolePolicyJSON arn url (serviceAccountName args.Namespace) }
        = .ok role →
      eng.NewPolicy (name ++ "-policy") { Policy := clusterAutoScalerRolePolicyJSON } (some role)
        = .ok policy →
      [.role, .policy, .attachment, .kubeNamespace]
        <+: kinds (NewClusterAutoscaler eng ctx name args opts).1 ∧
      (eng.NewNamespace name { MetadataName := args.Namespace } ClusterAutoscaler.zero = .ok () →
        kinds (NewClusterAutoscaler eng ctx name args opts).1
          = [.role, .policy, .attachment, .kubeNamespace, .chart, .component])) := by
  refine ⟨?_, ?_, ?_⟩
  · simp only [NewClusterAutoscaler, hns, harn, hurl, hregion, if_true]
    repeat' split
    all_goals simp [kinds, Request.kind]
  · simp only [NewClusterAutoscaler, hns, harn, hurl, hregion, if_true]
    repeat' split
    all_goals simp [kinds, Request.kind]
  · intro role policy hrole hpolicy
    constructor
    · simp only [NewClusterAutoscaler, hns, harn, hurl, hregion, hrole, ptrOf, hpolicy, if_true]
      repeat' split
      all_goals simp [kinds, Request.kind]
    · intro hnsok
      simp only [NewClusterAutoscaler, hns, harn, hurl, hregion, hrole, ptrOf, hpolicy, hnsok,
        errOf, if_true]
      repeat' split
      all_goals simp [kinds, Request.kind]

/-- Witness of the amended C8: in the end-to-end scenario the six requests are
issued, the namespace request fourth. -/
theorem request_order_witness :
    kinds (NewClusterAutoscaler okEngine exampleContext "ca" exampleArgs []).1
      = [.role, .policy, .attachment, .kubeNamespace, .chart, .component] :=
  ((request_order okEngine exampleContext "ca" exampleArgs []
      "arn:aws:iam::123:oidc-provider/x" "oidc.eks.amazonaws.com/id/ABC" "us-east-1"
      rfl rfl rfl rfl).2.2 exampleRole examplePolicy rfl rfl).2 rfl

end ClusterAutoscalerModel
